import Mathlib

/-!
Verification of the Magellan/MAGE spectrograph module
(pypeit/spectrographs/magellan_mage.py) against its natural-language
specification.  The Python class body defines several methods twice; as in
Python, the later (shadowing) definition is the effective one.  We embed both
where a claim needs the shadowed form.  Helper routines living outside the
excerpt (framematch.check_frame_exptime, parse.parse_binning,
parse.binning2string, Spectrograph.empty_bpm, pixels.slit_pixels) are
modelled from the specification text, and each such definition says so in
its doc comment.
-/

namespace MagellanMAGE

/-! ## Frame-type classification -/

/-- One row of the frame table: an identifier field and an exposure time. -/
structure FrameRow where
  idname : String
  exptime : Int
deriving Repr, DecidableEq

/-- Modelled from the spec: framematch.check_frame_exptime is not in the
excerpt.  Exposure-time range filtering is inclusive of the given bounds and
treats an unbounded side (absent bound) as no constraint on that side; an
absent range means no filtering at all. -/
def check_frame_exptime (exptime : Int) (exprng : Option (Option Int × Option Int)) : Bool :=
  match exprng with
  | none => true
  | some (lo, hi) =>
    (match lo with | none => true | some l => decide (l ≤ exptime)) &&
    (match hi with | none => true | some h => decide (exptime ≤ h))

/-- Embedding of MagellanMAGESpectrograph.check_frame_type: pinhole and bias
frames are universally excluded; pixelflat and trace match on the identifier
field being domeflat; every other type matches on the identifier field being
object conjoined with the exposure-time range check. -/
def check_frame_type (ftype : String) (fitstbl : List FrameRow)
    (exprng : Option (Option Int × Option Int)) : List Bool :=
  if ftype = "pinhole" ∨ ftype = "bias" then
    fitstbl.map (fun _ => false)
  else if ftype = "pixelflat" ∨ ftype = "trace" then
    fitstbl.map (fun r => r.idname == "domeflat")
  else
    fitstbl.map (fun r => (r.idname == "object") && check_frame_exptime r.exptime exprng)

/-- Embedding of the exposure-time ranges set by default_pypeit_par:
standardframe gets range (None, 20]; arcframe, darkframe and scienceframe get
range [20, None); no other frame type is given a range there. -/
def default_exprng (ftype : String) : Option (Option Int × Option Int) :=
  if ftype = "standard" then some (none, some 20)
  else if ftype = "arc" ∨ ftype = "dark" ∨ ftype = "science" then some (some 20, none)
  else none

/-! ## Compound metadata -/

/-- A raw header extension, reduced to the one card compound_meta reads. -/
structure Header where
  binning : String
deriving Repr, DecidableEq

/-- Split a character list at the first occurrence of the letter x. -/
def splitAtX : List Char → List Char × List Char
  | [] => ([], [])
  | c :: rest =>
    if c = 'x' then ([], rest)
    else
      let p := splitAtX rest
      (c :: p.1, p.2)

/-- Read a nonempty list of decimal digits as a natural number. -/
def natOfDigits (l : List Char) : Option Nat :=
  l.foldl
    (fun acc c =>
      match acc with
      | some n => if c.isDigit then some (n * 10 + (c.toNat - 48)) else none
      | none => none)
    (if l.isEmpty then none else some 0)

/-- Modelled from the spec: parse.parse_binning is not in the excerpt.  It
reads the two separate spatial and spectral binning factors out of the raw
binning header value, here written as the two x-separated numbers; the result
is the pair (binspatial, binspec). -/
def parse_binning (s : String) : Nat × Nat :=
  let p := splitAtX s.toList
  match natOfDigits p.1, natOfDigits p.2 with
  | some a, some b => (a, b)
  | _, _ => (1, 1)

/-- Modelled from the spec: parse.binning2string is not in the excerpt.  It
combines the spectral and spatial binning factors into one canonical
descriptor string in a fixed format, spectral factor first. -/
def binning2string (binspec binspatial : Nat) : String :=
  toString binspec ++ "," ++ toString binspatial

/-- Embedding of MagellanMAGESpectrograph.compound_meta.  For the binning key
it reads the first header extension and combines the parsed factors via
binning2string; reading the first extension of an empty header list is an
index error; any other key falls off the end of the function, which in Python
returns None. -/
def compound_meta (headarr : List Header) (meta_key : String) :
    Except String (Option String) :=
  if meta_key = "binning" then
    match headarr with
    | [] => .error ("IndexError")
    | h :: _ =>
      .ok (some (binning2string (parse_binning h.binning).2 (parse_binning h.binning).1))
  else
    .ok none

/-! ## Claims C5, C7, C8, C9 -/

/-- Claim C5: for every frame-table row with exposure time 15 and every frame
type whose configured exposure-time range is [20, None], check_frame_type
excludes that row from the returned mask regardless of its identifier field;
and in general the modelled exposure-time range filtering is inclusive of the
given bounds with an absent bound imposing no constraint on that side. -/
theorem c5_exptime_range_excludes :
    (∀ ftype : String, default_exprng ftype = some (some 20, none) →
      ∀ (tbl : List FrameRow) (i : Nat) (row : FrameRow),
        tbl[i]? = some row → row.exptime = 15 →
        (check_frame_type ftype tbl (default_exprng ftype))[i]? = some false) ∧
    (∀ t lo hi : Int, check_frame_exptime t (some (some lo, some hi)) =
      (decide (lo ≤ t) && decide (t ≤ hi))) ∧
    (∀ (t lo : Int), check_frame_exptime t (some (some lo, none)) = decide (lo ≤ t)) ∧
    (∀ (t hi : Int), check_frame_exptime t (some (none, some hi)) = decide (t ≤ hi)) ∧
    (∀ t : Int, check_frame_exptime t (some (none, none)) = true) ∧
    (∀ t : Int, check_frame_exptime t none = true) := by
  refine ⟨?_, fun t lo hi => rfl, fun t lo => by simp [check_frame_exptime],
    fun t hi => by simp [check_frame_exptime], fun t => rfl, fun t => rfl⟩
  intro ftype hcfg tbl i row hget hexp
  have hty : ftype = "arc" ∨ ftype = "dark" ∨ ftype = "science" := by
    by_contra hne
    rcases Classical.em (ftype = "standard") with hs | hs
    · simp [default_exprng, hs] at hcfg
    · simp [default_exprng, hs, hne] at hcfg
  have hmask : check_frame_type ftype tbl (default_exprng ftype) =
      tbl.map (fun r => (r.idname == "object") &&
        check_frame_exptime r.exptime (default_exprng ftype)) := by
    rcases hty with h | h | h <;> subst h <;> rfl
  rw [hmask, List.getElem?_map, hget]
  have hrng : default_exprng ftype = some (some 20, none) := hcfg
  rw [hrng]
  simp [check_frame_exptime, hexp]

/-- Witness for C5 at a concrete input: frame type science, a one-row table
whose row has identifier object and exposure time 15 is excluded. -/
theorem c5_witness :
    (check_frame_type ("science") [⟨"object", 15⟩] (default_exprng ("science")))[0]? =
      some false :=
  c5_exptime_range_excludes.1 ("science") rfl [⟨"object", 15⟩] 0 ⟨"object", 15⟩ rfl rfl

/-- Claim C7: for the binning key, compound_meta on any nonempty header list
produces the single canonical combined string obtained by handing the parsed
spectral and spatial factors to the named derivation function binning2string;
concretely, a raw value of 1x2 yields the combined descriptor 2,1. -/
theorem c7_compound_binning :
    (∀ (h : Header) (rest : List Header),
      compound_meta (h :: rest) "binning" =
        .ok (some (binning2string (parse_binning h.binning).2
          (parse_binning h.binning).1))) ∧
    compound_meta [⟨"1x2"⟩] "binning" = .ok (some ("2,1")) := by
  exact ⟨fun h rest => rfl, by rfl⟩

/-- Claim C8: for frame types pixelflat and trace the returned mask depends
only on the identifier column: two calls that differ only in the exposure-time
range argument and in the exposure-time column return identical masks. -/
theorem c8_flat_trace_ignore_exptime :
    ∀ ftype : String, (ftype = "pixelflat" ∨ ftype = "trace") →
    ∀ (tbl1 tbl2 : List FrameRow)
      (e1 e2 : Option (Option Int × Option Int)),
      tbl1.map FrameRow.idname = tbl2.map FrameRow.idname →
      check_frame_type ftype tbl1 e1 = check_frame_type ftype tbl2 e2 := by
  intro ftype hty tbl1 tbl2 e1 e2 hid
  have key : ∀ (tbl : List FrameRow) (e : Option (Option Int × Option Int)),
      check_frame_type ftype tbl e =
        (tbl.map FrameRow.idname).map (fun s => s == "domeflat") := by
    intro tbl e
    rcases hty with h | h <;> subst h <;>
      simp [check_frame_type, List.map_map, Function.comp]
  rw [key tbl1 e1, key tbl2 e2, hid]

/-- Witness for C8 at a concrete input: two one-row tables sharing the
identifier domeflat but with different exposure times, classified as
pixelflat under different exposure ranges, get the same mask. -/
theorem c8_witness :
    check_frame_type ("pixelflat") [⟨"domeflat", 3⟩] none =
      check_frame_type ("pixelflat") [⟨"domeflat", 99⟩] (some (some 20, none)) :=
  c8_flat_trace_ignore_exptime ("pixelflat") (Or.inl rfl)
    [⟨"domeflat", 3⟩] [⟨"domeflat", 99⟩] none (some (some 20, none)) rfl

/-- Claim C9: for every meta key other than binning, compound_meta returns no
value, by silent fall-through, rather than raising an error. -/
theorem c9_compound_fallthrough :
    ∀ (headarr : List Header) (meta_key : String), meta_key ≠ "binning" →
      compound_meta headarr meta_key = .ok none := by
  intro headarr meta_key hne
  unfold compound_meta
  simp [hne]

/-- Witness for C9 at a concrete input: the key exptime yields ok-none even on
an empty header list. -/
theorem c9_witness : compound_meta [] "exptime" = .ok none :=
  c9_compound_fallthrough [] "exptime" (by decide)

/-! ## Bad pixel mask -/

/-- Modelled from the spec: Spectrograph.empty_bpm is not in the excerpt.  It
produces the all-good baseline mask of the requested shape; false means a good
pixel.  The shape argument is kept to mirror the call, the mask being read
only inside it. -/
def empty_bpm (shape : Nat × Nat) : Nat → Nat → Bool :=
  fun _ _ => false

/-- Embedding of the first (shadowed) bpm definition in the class body: on
detector 1 it marks the first 20 columns and every column from 1000 onward of
the baseline mask as bad. -/
def bpm_first (shape : Nat × Nat) (det : Option Int) : Nat → Nat → Bool :=
  if det = some 1 then
    fun r c => if c < 20 ∨ 1000 ≤ c then true else empty_bpm shape r c
  else
    empty_bpm shape

/-- Embedding of the second bpm definition in the class body, the effective
one under Python shadowing: it builds the baseline mask and returns it
untouched, for every detector index. -/
def bpm (shape : Nat × Nat) (det : Option Int) : Nat → Nat → Bool :=
  empty_bpm shape

/-- Claim C1 (divergence): at detector index 1 and shape (1024, 2048) the
effective bpm leaves every pixel good — including column 0 (inside the first
20 columns) and column 1005 (at or beyond column 1000), where the claim
requires a masked pixel — whereas the shadowed first definition does mask
exactly those regions.  The shadowing second definition is documented for a
different instrument, so the code contradicts its own documentation. -/
theorem c1_bpm_divergence :
    bpm (1024, 2048) (some 1) 0 0 = false ∧
    bpm (1024, 2048) (some 1) 0 1005 = false ∧
    bpm (1024, 2048) (some 1) 0 500 = false ∧
    bpm_first (1024, 2048) (some 1) 0 0 = true ∧
    bpm_first (1024, 2048) (some 1) 0 1005 = true ∧
    bpm_first (1024, 2048) (some 1) 0 500 = false := by
  refine ⟨rfl, rfl, rfl, by decide, by decide, by decide⟩

/-! ## Per-order plate scale -/

/-- Number of echelle orders declared for MAGE in the class constructor. -/
def norders : Nat := 15

/-- Embedding of the second order_platescale definition in the class body, the
effective one under Python shadowing.  In the source it is a static method
whose first parameter is named self, so every call must pass one positional
argument; that argument and the binning argument are both unused, and the
result is the constant 16-entry array with every entry 0.197. -/
def order_platescale {α : Type} (self : α) (binning : Option String) : List ℚ :=
  List.replicate 16 (197 / 1000)

/-- Claim C3 counterexample: the effective plate-scale table has 16 entries,
not the declared number of orders norders = 15. -/
theorem c3_counterexample :
    (order_platescale () none).length ≠ norders := by
  decide

/-- Claim C3 (amended): the per-order plate-scale table returned by the
effective order_platescale has exactly 16 entries, one more than the declared
number of echelle orders norders = 15, for every choice of arguments. -/
theorem c3_platescale_length :
    ∀ {α : Type} (self : α) (binning : Option String),
      (order_platescale self binning).length = 16 ∧ norders = 15 := by
  intro α self binning
  exact ⟨by simp [order_platescale], rfl⟩

/-- Claim C10: the effective order_platescale takes a mandatory first
argument (the parameter named self of the static method) and an optional
binning argument, and its result is independent of both: every call returns
the same constant table of 16 entries all equal to 0.197. -/
theorem c10_platescale_constant :
    (∀ {α β : Type} (a : α) (b : β) (b1 b2 : Option String),
      order_platescale a b1 = order_platescale b b2) ∧
    (order_platescale () none).length = 16 ∧
    (∀ x ∈ order_platescale () none, x = 197 / 1000) := by
  refine ⟨fun a b b1 b2 => rfl, by simp [order_platescale], ?_⟩
  intro x hx
  simpa [order_platescale] using List.eq_of_mem_replicate hx

/-- Witness for C10 at a concrete input: 0.197 is an entry of the table and
the theorem applies to it. -/
theorem c10_witness :
    ((197 : ℚ) / 1000 ∈ order_platescale () none) ∧ ((197 : ℚ) / 1000 = 197 / 1000) :=
  ⟨by simp [order_platescale],
    c10_platescale_constant.2.2 ((197 : ℚ) / 1000) (by simp [order_platescale])⟩

/-! ## Slit-to-order mapping -/

/-- The explicit lookup table of the effective (shadowing) slit2order: the
value of numpy arange from 26 down to 11, sixteen physical order numbers in
descending sequence. -/
def orders : List Int := [26, 25, 24, 23, 22, 21, 20, 19, 18, 17, 16, 15, 14, 13, 12, 11]

/-- Numpy integer indexing of a one-dimensional array: a negative index is
shifted by the length (wraparound from the end); an index still out of bounds
after that shift raises an index error.  The shifted index is in range in the
ok branch, so the getD default is never read. -/
def npGetInt (a : List Int) (i : Int) : Except String Int :=
  let j := if i < 0 then i + a.length else i
  if 0 ≤ j ∧ j.toNat < a.length then .ok (a.getD j.toNat 0)
  else .error ("IndexError")

/-- Python int() applied to a rational: truncation toward zero. -/
def pyIntOfRat (q : ℚ) : Int :=
  if 0 ≤ q then ⌊q⌋ else ⌈q⌉

/-- Python int() applied to a string: an optional leading minus sign followed
by decimal digits; anything else raises a value error (returned as none). -/
def pyStrToInt (s : String) : Option Int :=
  match s.toList with
  | '-' :: rest => (natOfDigits rest).map (fun n => -(n : Int))
  | l => (natOfDigits l).map (fun n => (n : Int))

/-- The value passed to slit2order: a string, a numpy integer array, a float,
an int, or a value of any other type. -/
inductive Islit where
  | str (s : String)
  | ndarray (a : List Int)
  | float (q : ℚ)
  | int (n : Int)
  | other
deriving Repr, DecidableEq

/-- What slit2order can return: one order number, or one per array element. -/
inductive SlitOrder where
  | scalar (n : Int)
  | array (a : List Int)
deriving Repr, DecidableEq

/-- Embedding of the second slit2order definition in the class body, the
effective one under Python shadowing.  A string is converted with int(),
which raises a value error on a non-numeric string; a numpy array is
converted elementwise; a float is truncated; an int passes through; any other
type is a fatal error.  The converted value then indexes the sixteen-entry
orders table with numpy indexing semantics. -/
def slit2order : Islit → Except String SlitOrder
  | .str s =>
    match pyStrToInt s with
    | some n => (npGetInt orders n).map .scalar
    | none => .error ("ValueError")
  | .ndarray a => (a.mapM (npGetInt orders)).map .array
  | .float q => (npGetInt orders (pyIntOfRat q)).map .scalar
  | .int n => (npGetInt orders n).map .scalar
  | .other => .error ("Unrecognized type for islit")

/-- The orders table read at an in-range position is 26 minus the position. -/
theorem orders_getD (i : Nat) (h : i < 16) : orders.getD i 0 = 26 - (i : Int) := by
  interval_cases i <;> rfl

/-- At a nonnegative in-range int label, slit2order returns the table entry. -/
theorem slit2order_int_nonneg (i : Nat) (h : i < 16) :
    slit2order (.int i) = .ok (.scalar (26 - (i : Int))) := by
  have hlen : orders.length = 16 := rfl
  have hj : ¬ ((i : Int) < 0) := by omega
  simp only [slit2order, npGetInt, hlen, hj, if_false]
  rw [if_pos ⟨by omega, by omega⟩]
  have htn : ((i : Int)).toNat = i := by omega
  rw [htn, orders_getD i h]
  rfl

/-- Claim C2: restricted to the declared label range 0 .. 14 (norders = 15),
slit2order is injective — 15 distinct labels map to 15 distinct physical
order numbers with no collisions — the underlying explicit lookup table is
strictly descending there, and each label maps exactly to its table entry. -/
theorem c2_slit2order_bijection :
    (∀ i j : Nat, i < norders → j < norders →
      slit2order (.int i) = slit2order (.int j) → i = j) ∧
    (∀ i : Nat, i + 1 < norders → orders.getD (i + 1) 0 < orders.getD i 0) ∧
    (∀ i : Nat, i < norders → slit2order (.int i) = .ok (.scalar (orders.getD i 0))) := by
  have hn : norders = 15 := rfl
  refine ⟨?_, ?_, ?_⟩
  · intro i j hi hj heq
    rw [hn] at hi hj
    rw [slit2order_int_nonneg i (by omega), slit2order_int_nonneg j (by omega)] at heq
    have : (26 : Int) - i = 26 - j := by
      injection heq with h1
      injection h1
    omega
  · intro i hi
    rw [hn] at hi
    rw [orders_getD i (by omega), orders_getD (i + 1) (by omega)]
    push_cast
    omega
  · intro i hi
    rw [hn] at hi
    rw [slit2order_int_nonneg i (by omega), orders_getD i (by omega)]

/-- Witness for C2 at concrete inputs: labels 0 and 14 are mapped to the
table entries 26 and 12, and the mapping separates them. -/
theorem c2_witness :
    slit2order (.int 0) = .ok (.scalar (orders.getD 0 0)) ∧
    slit2order (.int 14) = .ok (.scalar (orders.getD 14 0)) ∧
    (slit2order (.int 0) = slit2order (.int 14) → (0 : Nat) = 14) :=
  ⟨c2_slit2order_bijection.2.2 0 (by decide),
    c2_slit2order_bijection.2.2 14 (by decide),
    c2_slit2order_bijection.1 0 14 (by decide) (by decide)⟩

/-- Claim C4 counterexample: the label index -1 is not rejected; it silently
wraps around to the last table entry, order number 11, instead of being an
error. -/
theorem c4_counterexample :
    slit2order (.int (-1)) = .ok (.scalar 11) := by
  rfl

/-- Claim C4 (amended): slit2order type-checks its argument — an unrecognized
type is a fatal error, a non-numeric string is a value error — and a label
index at or beyond the table length (16), or below -16, raises an index error
rather than wrapping; but non-negativity is not validated: a label index in
[-16, -1] silently wraps around to the entry at position 16 + i, yielding
another order number. -/
theorem c4_slit2order_validation :
    (slit2order .other = .error ("Unrecognized type for islit")) ∧
    (slit2order (.str ("echelle")) = .error ("ValueError")) ∧
    (∀ i : Int, 16 ≤ i → slit2order (.int i) = .error ("IndexError")) ∧
    (∀ i : Int, i < -16 → slit2order (.int i) = .error ("IndexError")) ∧
    (∀ i : Int, -16 ≤ i → i < 0 →
      slit2order (.int i) = .ok (.scalar (orders.getD (i + 16).toNat 0))) := by
  refine ⟨rfl, rfl, ?_, ?_, ?_⟩
  · intro i hi
    have hneg : ¬ (i < 0) := by omega
    have hlen : orders.length = 16 := rfl
    simp only [slit2order, npGetInt, hlen, hneg, if_false]
    rw [if_neg (by omega)]
    rfl
  · intro i hi
    have hneg : i < 0 := by omega
    have hlen : orders.length = 16 := rfl
    simp only [slit2order, npGetInt, hlen, hneg, if_true]
    rw [if_neg (by omega)]
    rfl
  · intro i h1 h2
    have hneg : i < 0 := h2
    have hlen : orders.length = 16 := rfl
    simp only [slit2order, npGetInt, hlen, hneg, if_true]
    rw [if_pos ⟨by omega, by omega⟩]
    rfl

/-- Witness for C4 at concrete inputs: label 16 is an index error, label -20
is an index error, and label -16 wraps to the entry at position 0. -/
theorem c4_witness :
    slit2order (.int 16) = .error ("IndexError") ∧
    slit2order (.int (-20)) = .error ("IndexError") ∧
    slit2order (.int (-16)) = .ok (.scalar (orders.getD ((-16 : Int) + 16).toNat 0)) :=
  ⟨c4_slit2order_validation.2.2.1 16 (by decide),
    c4_slit2order_validation.2.2.2.1 (-20) (by decide),
    c4_slit2order_validation.2.2.2.2 (-16) (by decide) (by decide)⟩

/-! ## Slit mask construction -/

/-- The per-order maximum illuminated spectral positions from the effective
(shadowing) slitmask definition; 2025 stands in where the upper region is not
illuminated. -/
def order_max : List Int :=
  [1476, 1513, 1551, 1592, 1687, 1741, 1801, 1864, 1935, 2007, 2025, 2025, 2025, 2025, 2025, 2025]

/-- The per-order minimum illuminated spectral positions from the effective
(shadowing) slitmask definition. -/
def order_min : List Int :=
  [418, 385, 362, 334, 303, 268, 230, 187, 140, 85, 26, 0, 0, 0, 0, 0]

/-- The trace slits dictionary: spectral and spatial pixel counts, the number
of slits (the second dimension of the boundary arrays), left and right slit
boundary positions indexed by spectral position and slit index, and the
stored pad. -/
structure TslitsDict where
  nspec : Nat
  nspat : Nat
  nslits : Nat
  lcen : Nat → Nat → ℚ
  rcen : Nat → Nat → ℚ
  pad : ℚ

/-- Modelled from the spec: pixels.slit_pixels is not in the excerpt.  It
builds the base label image from the boundary traces with the spatial pad:
a pixel inside the padded boundaries of a slit carries that slit index, from
0 to nslits - 1, and a pixel in no slit carries the sentinel -1. -/
def baseLabel (td : TslitsDict) (pad : ℚ) (r c : Nat) : Int :=
  match (List.range td.nslits).find? (fun i =>
      decide (td.lcen r i - pad ≤ (c : ℚ) ∧ (c : ℚ) ≤ td.rcen r i + pad)) with
  | some i => (i : Int)
  | none => -1

/-- The orderbad spectral condition of the effective slitmask: the spectral
position r lies outside the illuminated range tabulated for a slit. -/
def specOut (islit r : Nat) : Prop :=
  (r : Int) < order_min.getD islit 0 ∨ order_max.getD islit 0 < (r : Int)

instance (islit r : Nat) : Decidable (specOut islit r) := by
  unfold specOut
  exact inferInstance

/-- One pass of the correction loop of the effective slitmask: pixels that
carry the given slit index but lie outside its illuminated spectral range are
reset to the sentinel. -/
def orderCorrectionStep (mask : Nat → Nat → Int) (islit : Nat) : Nat → Nat → Int :=
  fun r c => if mask r c = (islit : Int) ∧ specOut islit r then -1 else mask r c

/-- The fold over all slit indices performed by the effective slitmask after
building the base label image. -/
def slitmaskFn (td : TslitsDict) (pad : Option ℚ) : Nat → Nat → Int :=
  (List.range td.nslits).foldl orderCorrectionStep
    (fun r c => baseLabel td (pad.getD td.pad) r c)

/-- Embedding of the second slitmask definition in the class body, the
effective one under Python shadowing: the pad argument falls back to the
stored pad, the base label image comes from the boundary traces, and the
correction loop runs over every slit index.  The tables have 16 entries, so
with more than 16 slits the loop reads past them, which in Python is an
uncaught index error, embedded here as none. -/
def slitmask (td : TslitsDict) (pad : Option ℚ) (binning : Option String) :
    Option (Nat → Nat → Int) :=
  if td.nslits ≤ 16 then some (slitmaskFn td pad) else none

/-- The base label image only carries the sentinel or an in-range slit
index. -/
theorem baseLabel_range (td : TslitsDict) (pad : ℚ) (r c : Nat) :
    baseLabel td pad r c = -1 ∨
      (0 ≤ baseLabel td pad r c ∧ baseLabel td pad r c < (td.nslits : Int)) := by
  unfold baseLabel
  cases hf : (List.range td.nslits).find? (fun i =>
      decide (td.lcen r i - pad ≤ (c : ℚ) ∧ (c : ℚ) ≤ td.rcen r i + pad)) with
  | none => exact Or.inl rfl
  | some i =>
    right
    have hmem : i ∈ List.range td.nslits := List.mem_of_find?_eq_some hf
    have hi : i < td.nslits := List.mem_range.mp hmem
    exact ⟨by show (0 : Int) ≤ (i : Int) ; omega,
      by show (i : Int) < (td.nslits : Int) ; omega⟩

/-- Pixelwise characterization of the correction fold: a pixel is reset to
the sentinel exactly when its base label is a processed slit index whose
illuminated range excludes the spectral position, and is untouched
otherwise. -/
theorem foldl_correction_char (base : Nat → Nat → Int) (n r c : Nat) :
    ((List.range n).foldl orderCorrectionStep base) r c =
      if 0 ≤ base r c ∧ base r c < (n : Int) ∧ specOut (base r c).toNat r then -1
      else base r c := by
  induction n with
  | zero =>
    rw [List.range_zero, List.foldl_nil, if_neg]
    rintro ⟨h1, h2, _⟩
    omega
  | succ n ih =>
    rw [List.range_succ, List.foldl_append, List.foldl_cons, List.foldl_nil]
    show (if ((List.range n).foldl orderCorrectionStep base) r c = (n : Int) ∧ specOut n r
        then -1 else ((List.range n).foldl orderCorrectionStep base) r c) = _
    rw [ih]
    by_cases hc : 0 ≤ base r c ∧ base r c < (n : Int) ∧ specOut (base r c).toNat r
    · rw [if_pos hc, ite_self, if_pos ⟨hc.1, by omega, hc.2.2⟩]
    · rw [if_neg hc]
      by_cases h2 : base r c = (n : Int) ∧ specOut n r
      · have htn : (base r c).toNat = n := by omega
        rw [if_pos h2, if_pos ⟨by omega, by omega, by rw [htn] ; exact h2.2⟩]
      · rw [if_neg h2, if_neg]
        rintro ⟨hb0, hbn, hbs⟩
        rcases (by omega : base r c < (n : Int) ∨ base r c = (n : Int)) with hlt | heq
        · exact hc ⟨hb0, hlt, hbs⟩
        · refine h2 ⟨heq, ?_⟩
          have htn : (base r c).toNat = n := by omega
          rwa [htn] at hbs

/-- Claim C6: whenever slitmask succeeds, every pixel of the returned image
carries a label in the set with the sentinel -1 and the slit indices 0 to
nslits - 1; and for every slit index whose illuminated spectral range is
tabulated, no pixel whose spectral position lies outside that range retains
that label — it is reset to the sentinel. -/
theorem c6_slitmask_labels (td : TslitsDict) (pad : Option ℚ)
    (binning : Option String) (h : td.nslits ≤ 16) :
    slitmask td pad binning = some (slitmaskFn td pad) ∧
    (∀ r c, slitmaskFn td pad r c = -1 ∨
      (0 ≤ slitmaskFn td pad r c ∧ slitmaskFn td pad r c < (td.nslits : Int))) ∧
    (∀ i r c, i < td.nslits → specOut i r → slitmaskFn td pad r c ≠ (i : Int)) := by
  have hfn : ∀ r c, slitmaskFn td pad r c =
      if 0 ≤ baseLabel td (pad.getD td.pad) r c ∧
          baseLabel td (pad.getD td.pad) r c < (td.nslits : Int) ∧
          specOut (baseLabel td (pad.getD td.pad) r c).toNat r then -1
      else baseLabel td (pad.getD td.pad) r c :=
    fun r c =>
      foldl_correction_char (fun r c => baseLabel td (pad.getD td.pad) r c) td.nslits r c
  refine ⟨by simp [slitmask, h], ?_, ?_⟩
  · intro r c
    rw [hfn r c]
    by_cases hc : 0 ≤ baseLabel td (pad.getD td.pad) r c ∧
        baseLabel td (pad.getD td.pad) r c < (td.nslits : Int) ∧
        specOut (baseLabel td (pad.getD td.pad) r c).toNat r
    · rw [if_pos hc]
      exact Or.inl rfl
    · rw [if_neg hc]
      exact baseLabel_range td (pad.getD td.pad) r c
  · intro i r c hi hout heq
    rw [hfn r c] at heq
    by_cases hc : 0 ≤ baseLabel td (pad.getD td.pad) r c ∧
        baseLabel td (pad.getD td.pad) r c < (td.nslits : Int) ∧
        specOut (baseLabel td (pad.getD td.pad) r c).toNat r
    · rw [if_pos hc] at heq
      omega
    · rw [if_neg hc] at heq
      refine hc ⟨by omega, by omega, ?_⟩
      have htn : (baseLabel td (pad.getD td.pad) r c).toNat = i := by omega
      rwa [htn]

/-- A small concrete trace slits dictionary with one slit. -/
def tdW : TslitsDict :=
  { nspec := 4, nspat := 4, nslits := 1,
    lcen := fun _ _ => 1, rcen := fun _ _ => 2, pad := 0 }

/-- Witness for C6 at a concrete input: on a one-slit dictionary the call
succeeds, and the pixel at spectral position 0 — outside the illuminated
range [418, 1476] tabulated for slit 0 — does not retain label 0. -/
theorem c6_witness :
    slitmask tdW none none = some (slitmaskFn tdW none) ∧
    slitmaskFn tdW none 0 1 ≠ (0 : Int) :=
  ⟨(c6_slitmask_labels tdW none none (by decide)).1,
    (c6_slitmask_labels tdW none none (by decide)).2.2 0 0 1 (by decide)
      (by unfold specOut; decide)⟩

end MagellanMAGE
